import Mathlib

/-
Formal model of the pixano-elements annotation editors:
the 2D polygon editor (packages/graphics-2d/src/pxn-polygon.ts) and the
3D cuboid editor (packages/graphics-3d/src/pxn-cuboid.ts together with its
mode manager, cuboid-manager.ts).

Conventions of the embedding:
* JS numbers appearing in 2D geometry are modelled as rationals (the code
  performs only field arithmetic and comparisons on them); 3D headings are
  modelled as real numbers because they mix with pi.
* The observable sets (`ObservableSet`) hold JS objects compared by
  identity; we model each stored object as a pair `(token, data)` where the
  natural-number token plays the role of the object reference.  `add`
  appends a pair with a fresh token, `delete` removes a token.
* Lifecycle events (`update`, `selection`, `create`, `delete`) are recorded
  in output lists, in dispatch order.
-/

/-! ## 2D data model (packages/graphics-2d/src/pxn-polygon.ts) -/

/-- Geometry of a 2D shape record: `{type, vertices, mvertices}`. -/
structure Geometry where
  type : String
  vertices : List ℚ
  mvertices : List (List ℚ)
deriving DecidableEq

/-- A 2D annotation record (`ShapeData`). -/
structure ShapeData where
  id : String
  geometry : Geometry
  color : String
deriving DecidableEq

/-- `getFlattenVertices` from pxn-polygon.ts: one vertex ring for a plain
polygon, the list of rings for a multi-polygon. -/
def getFlattenVertices (g : Geometry) : List (List ℚ) :=
  if g.type = "multi_polygon" then g.mvertices.map (fun v => v)
  else [g.vertices]

/-- State of the `Polygon` editor element: the observable shape set
(`this.shapes`, object identities modelled by tokens), the token source for
fresh objects, and the current selection (`this.shManager.targetShapes`,
which holds the selected objects themselves, in insertion order). -/
structure PolygonEditor where
  items : List (Nat × ShapeData)
  next : Nat
  selection : List (Nat × ShapeData)
deriving DecidableEq

/-- `ObservableSet.delete` on the model: remove the object with token `t`. -/
def delTok (l : List (Nat × ShapeData)) (t : Nat) : List (Nat × ShapeData) :=
  l.filter (fun p => p.1 != t)

/-- The initial accumulator of `Polygon.merge`:
`{...shapes[0], geometry: {mvertices: [], vertices: [], type: 'multi_polygon'}}`. -/
def mergeInit (s0 : ShapeData) : ShapeData :=
  { s0 with geometry := { type := "multi_polygon", vertices := [], mvertices := [] } }

/-- One step of the reduce inside `Polygon.merge`:
`{...prev, id: prev.id + curr.id, geometry: {...prev.geometry, mvertices: [...prev.geometry.mvertices, ...currVertices]}}`. -/
def mergeStep (prev curr : ShapeData) : ShapeData :=
  { prev with
    id := prev.id ++ curr.id,
    geometry := { prev.geometry with
      mvertices := prev.geometry.mvertices ++ getFlattenVertices curr.geometry } }

/-- `Polygon.merge`: when more than one shape is selected, reduce the
selected shapes into a single multi-polygon record, add it to the set and
delete every selected original. -/
def Polygon.merge (ed : PolygonEditor) : PolygonEditor :=
  match ed.selection with
  | s0 :: s1 :: rest =>
      let shapes := s0 :: s1 :: rest
      let newAnn := (shapes.map Prod.snd).foldl mergeStep (mergeInit s0.2)
      let items1 := ed.items ++ [(ed.next, newAnn)]
      let items2 := shapes.foldl (fun acc s => delTok acc s.1) items1
      { items := items2, next := ed.next + 1, selection := ed.selection }
  | _ => ed

/-- The record built for ring `idx` by `Polygon.split`:
`{...shape, id: shape.id + String(idx), geometry: {mvertices: [], vertices: v, type: 'polygon'}}`. -/
def splitRecord (shape : ShapeData) (idx : Nat) (v : List ℚ) : ShapeData :=
  { shape with
    id := shape.id ++ toString idx,
    geometry := { type := "polygon", vertices := v, mvertices := [] } }

/-- `Polygon.split`: when exactly one shape is selected and it is a
multi-polygon, add one plain polygon record per ring and delete the
original. -/
def Polygon.split (ed : PolygonEditor) : PolygonEditor :=
  match ed.selection with
  | [s] =>
      if s.2.geometry.type = "multi_polygon" then
        let items1 := ed.items ++
          (s.2.geometry.mvertices.enum.map
            (fun iv => (ed.next + iv.1, splitRecord s.2 iv.1 iv.2)))
        { items := delTok items1 s.1,
          next := ed.next + s.2.geometry.mvertices.length,
          selection := ed.selection }
      else ed
  | _ => ed

/-! ## Node / mid-node drag release (PolygonsManager.onNodeUp / onRootUp)

`PolygonShape.isValid` and the base-class `cachedShape` are not part of the
sources under verification; the validity check is passed in as a predicate
and the cached pre-drag geometry as an argument. -/

/-- Outcome of a pointer release over a dragged node: the record's final
vertices, whether a console warning was logged, and the ids carried by the
emitted `update` events. -/
structure UpResult where
  vertices : List ℚ
  warned : Bool
  updates : List String
deriving DecidableEq

/-- `PolygonsManager.onNodeUp`: on release of a node drag, if the geometry
was changed, either revert to the cached vertices with a warning (invalid
result) or emit one `update` event (valid result). -/
def PolygonsManager.onNodeUp (valid : List ℚ → Bool) (updated : Bool)
    (objId : String) (cur cached : List ℚ) : UpResult :=
  if updated then
    if !(valid cur) then
      { vertices := cached, warned := true, updates := [] }
    else
      { vertices := cur, warned := false, updates := [objId] }
  else
    { vertices := cur, warned := false, updates := [] }

/-- `PolygonsManager.onRootUp`: the mid-node variant of the same commit
logic; additionally clears the `isMidNodeTranslating` flag (second
component of the result). -/
def PolygonsManager.onRootUpMid (valid : List ℚ → Bool)
    (isMidNodeTranslating updated : Bool)
    (objId : String) (cur cached : List ℚ) : UpResult × Bool :=
  if isMidNodeTranslating then
    (if updated then
      if !(valid cur) then
        { vertices := cached, warned := true, updates := [] }
      else
        { vertices := cur, warned := false, updates := [objId] }
    else
      { vertices := cur, warned := false, updates := [] }, false)
  else
    ({ vertices := cur, warned := false, updates := [] }, isMidNodeTranslating)

/-! ## Polygon drawing (PolygonsManager.onRootDown, create mode) -/

/-- The transient shape under construction (`this.tmpShape`).
Modelled from the spec: `lastX`/`lastY` live on the `PolygonShape`
primitive (not under src/) and record the previous click position in
stage-pixel coordinates. -/
structure TmpShape where
  data : ShapeData
  lastX : ℚ
  lastY : ℚ
deriving DecidableEq

/-- State touched by the create-mode pointer-down handler: the transient
shape, the double-click timer flag (`isDbClick >= 0`), the `updated` flag
and the observable shape set. -/
structure DrawState where
  tmpShape : Option TmpShape
  dbClickActive : Bool
  updated : Bool
  items : List (Nat × ShapeData)
  next : Nat
deriving DecidableEq

/-- Modelled from the spec: `PolygonShape.pushNode` (not under src/)
appends a new duplicated cursor vertex to the ring and records the click
position as the new `lastX`/`lastY`. -/
def PolygonShape.pushNode (s : TmpShape) (x y px py : ℚ) : TmpShape :=
  let g1 := { s.data.geometry with vertices := s.data.geometry.vertices ++ [x, y] }
  { data := { s.data with geometry := g1 },
    lastX := px,
    lastY := py }

/-- Modelled from the spec: `PolygonShape.popNode` (not under src/) removes
the trailing duplicated cursor vertex (one coordinate pair). -/
def PolygonShape.popNode (v : List ℚ) : List ℚ :=
  v.take (v.length - 2)

/-- Modelled from the spec: `PolygonShape.isValid` (not under src/)
validates that the ring has at least 3 vertices (6 coordinates). -/
def PolygonShape.isValidRing (v : List ℚ) : Bool :=
  6 ≤ v.length

/-- `PolygonsManager.createPolygon`: pop the trailing duplicate, discard the
transient shape if invalid, otherwise assign the fresh id and insert the
record into the set.  The id produced by `Math.random` is a parameter. -/
def PolygonsManager.createPolygon (freshId : String) (st : DrawState) : DrawState :=
  match st.tmpShape with
  | none => st
  | some shape =>
      let v1 := PolygonShape.popNode shape.data.geometry.vertices
      if PolygonShape.isValidRing v1 then
        let d := { shape.data with
          id := freshId,
          geometry := { shape.data.geometry with vertices := v1 } }
        { st with
          tmpShape := none,
          items := st.items ++ [(st.next, d)],
          next := st.next + 1 }
      else
        { st with tmpShape := none }

/-- The create-mode branch of `PolygonsManager.onRootDown`: for a
non-secondary button press in create mode, either close the polygon
(double click: timer active and squared stage-pixel distance to the last
click below 2), append a vertex and restart the double-click timer, or
start a new transient polygon. -/
def PolygonsManager.onRootDownCreate (mode : String) (buttons : Nat)
    (mx my iw ih : ℚ) (freshId : String) (st : DrawState) : DrawState :=
  if mode = "create" ∧ buttons ≠ 2 then
    let mouseX := max (min (mx / iw) 1) 0
    let mouseY := max (min (my / ih) 1) 0
    match st.tmpShape with
    | some shape =>
        if st.dbClickActive ∧
            (mx - shape.lastX) * (mx - shape.lastX) +
              (my - shape.lastY) * (my - shape.lastY) < 2 then
          PolygonsManager.createPolygon freshId { st with updated := false }
        else
          { st with
            tmpShape := some (PolygonShape.pushNode shape mouseX mouseY mx my),
            dbClickActive := true }
    | none =>
        let g0 : Geometry :=
          { type := "polygon",
            vertices := [mouseX, mouseY, mouseX, mouseY],
            mvertices := [] }
        let t0 : TmpShape :=
          { data := { id := "tmp", geometry := g0, color := "red" },
            lastX := mx,
            lastY := my }
        { st with tmpShape := some t0 }
  else st

/-! ## 3D data model (packages/graphics-3d: pxn-cuboid.ts, cuboid-manager.ts) -/

/-- A 3D cuboid annotation record. -/
structure Cuboid where
  id : String
  position : ℝ × ℝ × ℝ
  size : ℝ × ℝ × ℝ
  heading : ℝ

/-- Modelled from the spec: `normalizeAngle` (graphics-3d utils, not under
src/) maps any real radian value to a canonical representative in a fixed
half-open interval of length two pi; here the interval [-pi, pi). -/
noncomputable def normalizeAngle (θ : ℝ) : ℝ :=
  θ - 2 * Real.pi * ⌊(θ + Real.pi) / (2 * Real.pi)⌋

/-- Lifecycle events dispatched by the cuboid editor; cuboid objects in
event details are referred to by their token. -/
inductive Event3D where
  | update (detail : Option Nat)
  | selection (detail : List Nat)
  | create (detail : Nat)
  | deleteEvt (detail : Nat)
deriving DecidableEq

/-- The mutable fields of `ModeManager` (cuboid-manager.ts) relevant to
mode switching: which sub-controllers exist, the pending-update flag, the
edit target and the orbit-control / interaction flags. -/
structure MMState where
  editMode : Bool
  createMode : Bool
  updatePending : Bool
  editTarget : Option Nat
  orbitEnabled : Bool
  navigating : Bool
  editing : Bool
deriving DecidableEq

/-- The "Restore default state" block at the top of `ModeManager.setMode`:
events dispatched during teardown (flush of a pending update, then the
empty `selection` notification). -/
def ModeManager.tdEvents (s : MMState) : List Event3D :=
  if s.editMode then
    (if s.updatePending then [Event3D.update s.editTarget] else []) ++
      [Event3D.selection []]
  else []

/-- The "Restore default state" block at the top of `ModeManager.setMode`:
resulting state (edit and create sub-controllers destroyed, pending update
cleared when an edit controller was active, orbit controls re-enabled,
interaction flags reset). -/
def ModeManager.tdState (s : MMState) : MMState :=
  { s with
    editMode := false,
    createMode := false,
    updatePending := if s.editMode then false else s.updatePending,
    orbitEnabled := true,
    navigating := false,
    editing := false }

/-- `ModeManager.setMode`: unconditional teardown followed by establishing
the requested mode.  Returns the dispatched events, the resulting state and
the message of the thrown error, if any (entering edit mode without a
target throws after teardown has completed). -/
def ModeManager.setMode (s : MMState) (mode : Option String) :
    List Event3D × MMState × Option String :=
  let evs1 := ModeManager.tdEvents s
  let s3 := ModeManager.tdState s
  if mode = some "edit" then
    match s3.editTarget with
    | none => (evs1, s3, some "cannot go into edit mode without a target")
    | some t =>
        (evs1 ++ [Event3D.selection [t]], { s3 with editMode := true }, none)
  else if mode = some "create" then
    (evs1, { s3 with createMode := true, orbitEnabled := false }, none)
  else
    (evs1, s3, none)

/-- State of the `CuboidEditor` element: the observable cuboid set
(`editableCuboids`, object identity modelled by tokens), the fresh-token
source and the mode manager. -/
structure EditorState where
  cuboids : List (Nat × Cuboid)
  next : Nat
  mm : MMState

/-- `CuboidEditor.defaultOnKeyDown`: Space rotates the edit target's
heading by -pi/2 (no normalization in the source) and dispatches `update`;
Escape clears mode and target; Delete removes the edit target (the set
observer tears the mode down) and dispatches `delete`; `c` enters create
mode. -/
noncomputable def CuboidEditor.defaultOnKeyDown (ed : EditorState) (key : String) :
    EditorState × List Event3D :=
  match key, ed.mm.editTarget with
  | " ", some t =>
      let cuboids1 := ed.cuboids.map (fun p =>
        if p.1 = t then (p.1, { p.2 with heading := p.2.heading - Real.pi / 2 })
        else p)
      ({ ed with cuboids := cuboids1 }, [Event3D.update (some t)])
  | "Escape", _ =>
      let r := ModeManager.setMode ed.mm none
      ({ ed with mm := { r.2.1 with editTarget := none } }, r.1)
  | "Delete", some t =>
      let cuboids1 := ed.cuboids.filter (fun p => p.1 != t)
      let r := ModeManager.setMode ed.mm none
      ({ cuboids := cuboids1, next := ed.next,
         mm := { r.2.1 with editTarget := none } },
       r.1 ++ [Event3D.deleteEvt t])
  | "c", _ =>
      let r := ModeManager.setMode ed.mm (some "create")
      ({ ed with mm := r.2.1 }, r.1)
  | _, _ => (ed, [])

/-- `CuboidEditor.rotate`: normalizes the target's heading after rotating
it by -pi/2; returns the selected cuboid's token as the source returns
`sel`. -/
noncomputable def CuboidEditor.rotate (ed : EditorState) : EditorState × Option Nat :=
  match ed.mm.editTarget with
  | some t =>
      let cuboids1 := ed.cuboids.map (fun p =>
        if p.1 = t then
          (p.1, { p.2 with heading := normalizeAngle (p.2.heading - Real.pi / 2) })
        else p)
      ({ ed with cuboids := cuboids1 }, some t)
  | none => (ed, none)

/-- `CuboidEditor.swap`: swaps the first two size components and rotates
the normalized heading by -pi/2. -/
noncomputable def CuboidEditor.swap (ed : EditorState) : EditorState × Option Nat :=
  match ed.mm.editTarget with
  | some t =>
      let cuboids1 := ed.cuboids.map (fun p =>
        if p.1 = t then
          (p.1, { p.2 with
            size := (p.2.size.2.1, p.2.size.1, p.2.size.2.2),
            heading := normalizeAngle (p.2.heading - Real.pi / 2) })
        else p)
      ({ ed with cuboids := cuboids1 }, some t)
  | none => (ed, none)

/-- The `editTarget` setter of `CuboidEditor`: a non-null target must be a
member of `editableCuboids` (otherwise an error is thrown); setting a
member enters edit mode through the mode manager. -/
def CuboidEditor.setEditTarget (ed : EditorState) (c : Option Nat) :
    Except String (EditorState × List Event3D) :=
  match c with
  | some t =>
      if ed.cuboids.any (fun p => p.1 == t) then
        let mm1 := { ed.mm with editTarget := some t }
        let r := ModeManager.setMode mm1 (some "edit")
        match r.2.2 with
        | some e => Except.error e
        | none => Except.ok ({ ed with mm := r.2.1 }, r.1)
      else Except.error "target is not an existing annotation"
  | none =>
      Except.ok ({ ed with mm := { ed.mm with editTarget := none } }, [])

/-- `CreateModeController.onMouseUp` in the selecting state, composed with
the `create` listener that `ModeManager.setMode` registers on the create
sub-controller: the fitted cuboid (produced by `fitBoxWithAutoZ`, not under
src/, hence a parameter) is added to the annotation set, becomes the edit
target, edit mode is entered (dispatching `selection`), and the `create`
event is forwarded to the host. -/
def CreateModeController.onMouseUp3D (ed : EditorState) (newCuboid : Cuboid) :
    EditorState × List Event3D :=
  let tok := ed.next
  let cuboids1 := ed.cuboids ++ [(tok, newCuboid)]
  let mm1 := { ed.mm with editTarget := some tok }
  let r := ModeManager.setMode mm1 (some "edit")
  ({ cuboids := cuboids1, next := ed.next + 1, mm := r.2.1 },
   r.1 ++ [Event3D.create tok])

/-! ## Concrete sample states used by witnesses and counterexamples -/

/-- A sample cuboid with the given heading. -/
def demoCuboid (h : ℝ) : Cuboid :=
  { id := "a", position := (0, 0, 0), size := (1, 1, 1), heading := h }

/-- A sample mode-manager state in edit mode targeting token 0. -/
def demoMM : MMState :=
  { editMode := true, createMode := false, updatePending := false,
    editTarget := some 0, orbitEnabled := false, navigating := false,
    editing := false }

/-- A sample editor holding a single cuboid with the given heading,
currently the edit target. -/
def demoEditor3D (h : ℝ) : EditorState :=
  { cuboids := [(0, demoCuboid h)], next := 1, mm := demoMM }

/-- Pressing the Space key and keeping the resulting editor state. -/
noncomputable def pressSpace (ed : EditorState) : EditorState :=
  (CuboidEditor.defaultOnKeyDown ed " ").1

/-- The stored heading of the first cuboid of the editor. -/
noncomputable def headingOf (ed : EditorState) : ℝ :=
  ((ed.cuboids.head?).map (fun p => p.2.heading)).getD 0

/-! ## Theorems -/

/-- C10: calling merge() while at most one shape is selected, and calling
split() while the selection is not exactly one multi_polygon shape, leaves
the annotation set (and the whole editor state) unchanged. -/
theorem c10_merge_split_noop (ed : PolygonEditor) :
    (ed.selection.length ≤ 1 → Polygon.merge ed = ed) ∧
    ((∀ s, ed.selection = [s] → ¬ s.2.geometry.type = "multi_polygon") →
      Polygon.split ed = ed) := by
  obtain ⟨items, next, sel⟩ := ed
  constructor
  · intro hlen
    match sel, hlen with
    | [], _ => rfl
    | [s], _ => rfl
  · intro hsel
    match sel, hsel with
    | [], _ => rfl
    | s :: s1 :: rest, _ => rfl
    | [s], hsel =>
        have h := hsel s rfl
        simp only [Polygon.split]
        rw [if_neg h]

/-- C10 witness: with an empty selection both merge and split leave a
concrete one-record set untouched. -/
theorem c10_merge_split_noop_witness :
    Polygon.merge
        { items := [(0, { id := "p", geometry := { type := "polygon", vertices := [0, 0, 1, 0, 1, 1], mvertices := [] }, color := "red" })],
          next := 1, selection := [] }
      = { items := [(0, { id := "p", geometry := { type := "polygon", vertices := [0, 0, 1, 0, 1, 1], mvertices := [] }, color := "red" })],
          next := 1, selection := [] } ∧
    Polygon.split
        { items := [(0, { id := "p", geometry := { type := "polygon", vertices := [0, 0, 1, 0, 1, 1], mvertices := [] }, color := "red" })],
          next := 1, selection := [] }
      = { items := [(0, { id := "p", geometry := { type := "polygon", vertices := [0, 0, 1, 0, 1, 1], mvertices := [] }, color := "red" })],
          next := 1, selection := [] } := by
  refine ⟨(c10_merge_split_noop _).1 (by decide), (c10_merge_split_noop _).2 ?_⟩
  intro s hs
  simp at hs

/-- C5: on release of a node drag or mid-node drag that changed the
geometry, an invalid result is reverted to the cached pre-drag vertices
with a non-fatal warning and no `update` event, while a valid result emits
exactly one `update` event carrying the record's id. -/
theorem c5_drag_release_validation (valid : List ℚ → Bool) (updated : Bool)
    (objId : String) (cur cached : List ℚ) (hup : updated = true) :
    (valid cur = false →
      PolygonsManager.onNodeUp valid updated objId cur cached =
        { vertices := cached, warned := true, updates := [] } ∧
      PolygonsManager.onRootUpMid valid true updated objId cur cached =
        ({ vertices := cached, warned := true, updates := [] }, false)) ∧
    (valid cur = true →
      PolygonsManager.onNodeUp valid updated objId cur cached =
        { vertices := cur, warned := false, updates := [objId] } ∧
      PolygonsManager.onRootUpMid valid true updated objId cur cached =
        ({ vertices := cur, warned := false, updates := [objId] }, false)) := by
  subst hup
  constructor
  · intro hv
    constructor
    · simp [PolygonsManager.onNodeUp, hv]
    · simp [PolygonsManager.onRootUpMid, hv]
  · intro hv
    constructor
    · simp [PolygonsManager.onNodeUp, hv]
    · simp [PolygonsManager.onRootUpMid, hv]

/-- C5 witness: concrete drags through a length-based validity check, one
invalid (reverted, warned, no event) and one valid (single update event). -/
theorem c5_drag_release_validation_witness :
    PolygonsManager.onNodeUp (fun v => decide (6 ≤ v.length)) true "id7"
        [0, 0, 1, 1] [0, 0, 1, 0, 1, 1] =
      { vertices := [0, 0, 1, 0, 1, 1], warned := true, updates := [] } ∧
    PolygonsManager.onNodeUp (fun v => decide (6 ≤ v.length)) true "id7"
        [0, 0, 1, 0, 2, 1] [0, 0, 1, 0, 1, 1] =
      { vertices := [0, 0, 1, 0, 2, 1], warned := false, updates := ["id7"] } := by
  constructor
  · exact ((c5_drag_release_validation (fun v => decide (6 ≤ v.length)) true "id7"
      [0, 0, 1, 1] [0, 0, 1, 0, 1, 1] rfl).1 (by decide)).1
  · exact ((c5_drag_release_validation (fun v => decide (6 ≤ v.length)) true "id7"
      [0, 0, 1, 0, 2, 1] [0, 0, 1, 0, 1, 1] rfl).2 (by decide)).1

/-- Sequentially deleting every selected token equals filtering the set by
all of them at once. -/
theorem foldl_delTok_eq_filter (sel : List (Nat × ShapeData)) :
    ∀ l : List (Nat × ShapeData),
      sel.foldl (fun acc s => delTok acc s.1) l
        = l.filter (fun p => sel.all (fun s => p.1 != s.1)) := by
  induction sel with
  | nil =>
      intro l
      simp [List.filter_eq_self]
  | cons s0 sel ih =>
      intro l
      simp only [List.foldl_cons]
      rw [ih (delTok l s0.1)]
      simp only [delTok, List.filter_filter]
      apply List.filter_congr
      intro a _
      simp [List.all_cons, Bool.and_comm]

/-- Removing the token of a member from a duplicate-free set removes
exactly one element. -/
theorem filter_ne_length {l : List (Nat × ShapeData)} {s : Nat × ShapeData}
    (hnd : (l.map Prod.fst).Nodup) (hmem : s ∈ l) :
    (l.filter (fun p => p.1 != s.1)).length + 1 = l.length := by
  induction l with
  | nil => cases hmem
  | cons a l ih =>
      simp only [List.map_cons, List.nodup_cons] at hnd
      rcases List.mem_cons.mp hmem with h | h
      · subst h
        rw [List.filter_cons_of_neg (by simp)]
        rw [List.filter_eq_self.mpr]
        · simp
        · intro p hp
          simp only [bne_iff_ne, ne_eq]
          intro he
          exact hnd.1 (he ▸ List.mem_map_of_mem Prod.fst hp)
      · have hne : a.1 ≠ s.1 := by
          intro he
          exact hnd.1 (he ▸ List.mem_map_of_mem Prod.fst h)
        rw [List.filter_cons_of_pos (by simpa using hne)]
        simpa using ih hnd.2 h

/-- Removing the tokens of k distinct members from a duplicate-free set
removes exactly k elements. -/
theorem filter_all_length (sel : List (Nat × ShapeData)) :
    ∀ l : List (Nat × ShapeData),
      (l.map Prod.fst).Nodup → (sel.map Prod.fst).Nodup →
      (∀ s ∈ sel, s ∈ l) →
      (l.filter (fun p => sel.all (fun s => p.1 != s.1))).length + sel.length
        = l.length := by
  induction sel with
  | nil =>
      intro l _ _ _
      simp [List.filter_eq_self]
  | cons s0 sel ih =>
      intro l hl hsel hmem
      simp only [List.map_cons, List.nodup_cons] at hsel
      have key : l.filter (fun p => (s0 :: sel).all (fun s => p.1 != s.1))
          = (l.filter (fun p => p.1 != s0.1)).filter
              (fun p => sel.all (fun s => p.1 != s.1)) := by
        rw [List.filter_filter]
        apply List.filter_congr
        intro a _
        simp [List.all_cons, Bool.and_comm]
      rw [key]
      have hsub : ((l.filter (fun p => p.1 != s0.1)).map Prod.fst).Nodup :=
        hl.sublist ((List.filter_sublist l).map Prod.fst)
      have hmem1 : ∀ s ∈ sel, s ∈ l.filter (fun p => p.1 != s0.1) := by
        intro s hs
        refine List.mem_filter.mpr ⟨hmem s (List.mem_cons_of_mem s0 hs), ?_⟩
        simp only [bne_iff_ne, ne_eq]
        intro he
        exact hsel.1 (he ▸ List.mem_map_of_mem Prod.fst hs)
      have h1 := ih (l.filter (fun p => p.1 != s0.1)) hsub hsel.2 hmem1
      have h2 := filter_ne_length hl (hmem s0 (List.mem_cons_self s0 sel))
      simp only [List.length_cons]
      omega

/-- The reduce inside `Polygon.merge` keeps the accumulator's geometry
type, appends each input's flattened rings, and concatenates the ids. -/
theorem mergeFold_spec (shapes : List ShapeData) :
    ∀ init : ShapeData,
      (shapes.foldl mergeStep init).geometry.type = init.geometry.type ∧
      (shapes.foldl mergeStep init).geometry.mvertices
        = init.geometry.mvertices ++
            (shapes.map (fun s => getFlattenVertices s.geometry)).flatten ∧
      (shapes.foldl mergeStep init).id
        = shapes.foldl (fun acc s => acc ++ s.id) init.id ∧
      (shapes.foldl mergeStep init).geometry.vertices
        = init.geometry.vertices := by
  induction shapes with
  | nil =>
      intro init
      simp
  | cons c shapes ih =>
      intro init
      obtain ⟨h1, h2, h3, h4⟩ := ih (mergeStep init c)
      refine ⟨?_, ?_, ?_, ?_⟩
      · rw [List.foldl_cons, h1]; rfl
      · rw [List.foldl_cons, h2]
        simp [mergeStep, List.append_assoc]
      · rw [List.foldl_cons, h3]; rfl
      · rw [List.foldl_cons, h4]; rfl

/-- A flattened list of singleton rings has one ring per input shape. -/
theorem flatten_length_ones (l : List (Nat × ShapeData))
    (h : ∀ s ∈ l, (getFlattenVertices s.2.geometry).length = 1) :
    ((l.map Prod.snd).map (fun s => getFlattenVertices s.geometry)).flatten.length
      = l.length := by
  induction l with
  | nil => rfl
  | cons a l ih =>
      simp only [List.map_cons, List.flatten_cons, List.length_append,
        List.length_cons]
      rw [ih (fun s hs => h s (List.mem_cons_of_mem a hs)),
        h a (List.mem_cons_self a l)]
      omega

/-- C3: merging a selection of k >= 2 shapes adds exactly one new
multi_polygon record whose mvertices are the flattened vertex rings of all
selected shapes (in order, one ring per plain polygon, multi-polygons
contributing their individual rings, hence k rings when all inputs are
plain), with an id obtained by concatenating the ids of the merged inputs,
and deletes all k originals, so the set size decreases by k - 1. -/
theorem c3_merge_multi_polygon (items : List (Nat × ShapeData)) (nxt : Nat)
    (s0 s1 : Nat × ShapeData) (rest : List (Nat × ShapeData))
    (hfresh : ∀ p ∈ items, p.1 < nxt)
    (hnditems : (items.map Prod.fst).Nodup)
    (hmem : ∀ s ∈ s0 :: s1 :: rest, s ∈ items)
    (hndsel : ((s0 :: s1 :: rest).map Prod.fst).Nodup) :
    let ed : PolygonEditor :=
      { items := items, next := nxt, selection := s0 :: s1 :: rest }
    let sel := s0 :: s1 :: rest
    let newAnn := (sel.map Prod.snd).foldl mergeStep (mergeInit s0.2)
    (Polygon.merge ed).items
        = items.filter (fun p => sel.all (fun s => p.1 != s.1))
            ++ [(nxt, newAnn)] ∧
    newAnn.geometry.type = "multi_polygon" ∧
    newAnn.geometry.mvertices
        = (sel.map (fun s => getFlattenVertices s.2.geometry)).flatten ∧
    newAnn.id = sel.foldl (fun acc s => acc ++ s.2.id) s0.2.id ∧
    ((∀ s ∈ sel, s.2.geometry.type ≠ "multi_polygon") →
        newAnn.geometry.mvertices.length = sel.length) ∧
    (Polygon.merge ed).items.length + sel.length = items.length + 1 ∧
    (∀ s ∈ sel, ∀ q ∈ (Polygon.merge ed).items, q.1 ≠ s.1) := by
  intro ed sel newAnn
  have hforall := mergeFold_spec (sel.map Prod.snd) (mergeInit s0.2)
  have hAllKeep : sel.all (fun s => (nxt : Nat) != s.1) = true := by
    rw [List.all_eq_true]
    intro s hs
    have := hfresh s (hmem s hs)
    simp only [bne_iff_ne, ne_eq]
    omega
  have hitems : (Polygon.merge ed).items
      = items.filter (fun p => sel.all (fun s => p.1 != s.1))
          ++ [(nxt, newAnn)] := by
    show (sel.foldl (fun acc s => delTok acc s.1) (items ++ [(nxt, newAnn)]))
        = items.filter (fun p => sel.all (fun s => p.1 != s.1)) ++ [(nxt, newAnn)]
    rw [foldl_delTok_eq_filter]
    rw [List.filter_append]
    congr 1
    rw [List.filter_eq_self]
    intro p hp
    rcases List.mem_singleton.mp hp with rfl
    exact hAllKeep
  refine ⟨hitems, ?_, ?_, ?_, ?_, ?_, ?_⟩
  · rw [hforall.1]; rfl
  · rw [hforall.2.1]
    simp [mergeInit, List.map_map]
    rfl
  · rw [hforall.2.2.1]
    rw [List.foldl_map]
    rfl
  · intro hplain
    rw [hforall.2.1]
    simp only [mergeInit, List.nil_append]
    apply flatten_length_ones
    intro s hs
    simp only [getFlattenVertices]
    rw [if_neg (hplain s hs)]
    rfl
  · rw [hitems]
    have := filter_all_length sel items hnditems hndsel hmem
    simp only [List.length_append, List.length_singleton]
    omega
  · intro s hs q hq
    rw [hitems] at hq
    rcases List.mem_append.mp hq with h | h
    · have := (List.mem_filter.mp h).2
      rw [List.all_eq_true] at this
      have := this s hs
      simpa using this
    · rcases List.mem_singleton.mp h with rfl
      have := hfresh s (hmem s hs)
      simp only [ne_eq]
      omega

/-- A sample plain polygon record. -/
def demoPolyA : ShapeData :=
  { id := "A",
    geometry := { type := "polygon", vertices := [0, 0, 1, 0, 1, 1], mvertices := [] },
    color := "red" }

/-- A second sample plain polygon record. -/
def demoPolyB : ShapeData :=
  { id := "B",
    geometry := { type := "polygon", vertices := [0, 0, 0, 1, 1, 1], mvertices := [] },
    color := "blue" }

/-- A sample editor holding the two plain polygons, both selected. -/
def demoMergeEditor : PolygonEditor :=
  { items := [(0, demoPolyA), (1, demoPolyB)], next := 2,
    selection := [(0, demoPolyA), (1, demoPolyB)] }

/-- C3 witness: merging the two selected plain polygons shrinks the set by
one, producing a multi_polygon whose mvertices holds both rings. -/
theorem c3_merge_multi_polygon_witness :
    (Polygon.merge demoMergeEditor).items.length + 2
        = demoMergeEditor.items.length + 1 ∧
    (([(0, demoPolyA), (1, demoPolyB)].map Prod.snd).foldl mergeStep
        (mergeInit demoPolyA)).geometry.type = "multi_polygon" ∧
    (([(0, demoPolyA), (1, demoPolyB)].map Prod.snd).foldl mergeStep
        (mergeInit demoPolyA)).geometry.mvertices.length = 2 := by
  have h := c3_merge_multi_polygon [(0, demoPolyA), (1, demoPolyB)] 2
    (0, demoPolyA) (1, demoPolyB) []
    (by decide) (by decide) (by decide) (by decide)
  obtain ⟨ha, hb, hc, hd, he, hf, hg⟩ := h
  exact ⟨hf, hb, he (by decide)⟩

/-- C4: splitting a single selected multi_polygon with m rings adds
exactly m plain polygon records (ring i keeping the original fields with
id extended by the index i and vertices equal to that ring) and deletes
the original, so the set size changes by m - 1. -/
theorem c4_split_multi_polygon (items : List (Nat × ShapeData)) (nxt : Nat)
    (s : Nat × ShapeData)
    (htype : s.2.geometry.type = "multi_polygon")
    (hfresh : ∀ p ∈ items, p.1 < nxt)
    (hnditems : (items.map Prod.fst).Nodup)
    (hmem : s ∈ items) :
    let ed : PolygonEditor := { items := items, next := nxt, selection := [s] }
    let m := s.2.geometry.mvertices.length
    (Polygon.split ed).items
        = items.filter (fun p => p.1 != s.1)
            ++ s.2.geometry.mvertices.enum.map
                (fun iv => (nxt + iv.1, splitRecord s.2 iv.1 iv.2)) ∧
    (Polygon.split ed).items.length + 1 = items.length + m ∧
    (∀ q ∈ (Polygon.split ed).items, q.1 ≠ s.1) ∧
    (∀ iv ∈ s.2.geometry.mvertices.enum,
        (nxt + iv.1, splitRecord s.2 iv.1 iv.2) ∈ (Polygon.split ed).items) := by
  intro ed m
  have hs1 : s.1 < nxt := hfresh s hmem
  have hitems : (Polygon.split ed).items
      = items.filter (fun p => p.1 != s.1)
          ++ s.2.geometry.mvertices.enum.map
              (fun iv => (nxt + iv.1, splitRecord s.2 iv.1 iv.2)) := by
    simp only [Polygon.split]
    rw [if_pos htype]
    simp only [delTok, List.filter_append]
    congr 1
    rw [List.filter_eq_self]
    intro q hq
    obtain ⟨iv, hiv, rfl⟩ := List.mem_map.mp hq
    simp only [bne_iff_ne, ne_eq]
    omega
  refine ⟨hitems, ?_, ?_, ?_⟩
  · rw [hitems]
    have h1 := filter_ne_length hnditems hmem
    simp only [List.length_append, List.length_map, List.enum_length]
    omega
  · intro q hq
    rw [hitems] at hq
    rcases List.mem_append.mp hq with h | h
    · have := (List.mem_filter.mp h).2
      simpa using this
    · obtain ⟨iv, hiv, rfl⟩ := List.mem_map.mp h
      simp only [ne_eq]
      omega
  · intro iv hiv
    rw [hitems]
    exact List.mem_append_right _ (List.mem_map_of_mem _ hiv)

/-- A sample multi-polygon record with two rings. -/
def demoMulti : ShapeData :=
  { id := "M",
    geometry := { type := "multi_polygon", vertices := [],
                  mvertices := [[0, 0, 1, 0, 1, 1], [0, 0, 0, 1, 1, 1]] },
    color := "red" }

/-- A sample editor holding only the two-ring multi-polygon, selected. -/
def demoSplitEditor : PolygonEditor :=
  { items := [(0, demoMulti)], next := 1, selection := [(0, demoMulti)] }

/-- C4 witness: splitting a concrete two-ring multi_polygon yields two
records in place of one, none of them carrying the original's token. -/
theorem c4_split_multi_polygon_witness :
    (Polygon.split demoSplitEditor).items.length + 1
      = ([(0, demoMulti)] : List (Nat × ShapeData)).length + 2 ∧
    (∀ q ∈ (Polygon.split demoSplitEditor).items, q.1 ≠ 0) := by
  have h := c4_split_multi_polygon [(0, demoMulti)] 1 (0, demoMulti)
    (by decide) (by decide) (by decide) (by decide)
  obtain ⟨ha, hb, hc, hd⟩ := h
  exact ⟨hb, hc⟩


/-- The record committed by `PolygonsManager.createPolygon` once the
trailing duplicate has been popped and the ring validated. -/
def committedRecord (shape : TmpShape) (fid : String) : ShapeData :=
  { shape.data with
    id := fid,
    geometry := { shape.data.geometry with
      vertices := PolygonShape.popNode shape.data.geometry.vertices } }

/-- C8 (corrected): while drawing, a primary-button pointer-down with the
double-click timer active and squared stage-pixel distance below 2 from
the previous click runs the close-and-commit routine instead of appending
a vertex: the transient shape is destroyed, and the closed ring is
committed to the set only when it passes the validity check (an invalid
ring is silently discarded).  Any other primary-button pointer-down while
drawing appends a duplicated cursor vertex and restarts the timer. -/
theorem c8_double_click_close_amended (st : DrawState) (shape : TmpShape)
    (buttons : Nat) (mx my iw ih : ℚ) (fid : String)
    (htmp : st.tmpShape = some shape) (hb : buttons ≠ 2) :
    ((st.dbClickActive = true ∧
        (mx - shape.lastX) * (mx - shape.lastX) +
          (my - shape.lastY) * (my - shape.lastY) < 2) →
      PolygonsManager.onRootDownCreate "create" buttons mx my iw ih fid st
          = PolygonsManager.createPolygon fid { st with updated := false } ∧
      (PolygonsManager.onRootDownCreate "create" buttons mx my iw ih fid st).tmpShape
          = none ∧
      (PolygonShape.isValidRing (PolygonShape.popNode shape.data.geometry.vertices)
          = true →
        (PolygonsManager.onRootDownCreate "create" buttons mx my iw ih fid st).items
          = st.items ++ [(st.next, committedRecord shape fid)]) ∧
      (PolygonShape.isValidRing (PolygonShape.popNode shape.data.geometry.vertices)
          = false →
        (PolygonsManager.onRootDownCreate "create" buttons mx my iw ih fid st).items
          = st.items)) ∧
    (¬ (st.dbClickActive = true ∧
        (mx - shape.lastX) * (mx - shape.lastX) +
          (my - shape.lastY) * (my - shape.lastY) < 2) →
      PolygonsManager.onRootDownCreate "create" buttons mx my iw ih fid st
        = { st with
            tmpShape := some (PolygonShape.pushNode shape
              (max (min (mx / iw) 1) 0) (max (min (my / ih) 1) 0) mx my),
            dbClickActive := true }) := by
  obtain ⟨tmp, dbc, upd, itemsSt, nxtSt⟩ := st
  have htmp2 : tmp = some shape := htmp
  subst htmp2
  constructor
  · intro hcond
    have hred : PolygonsManager.onRootDownCreate "create" buttons mx my iw ih fid
        ⟨some shape, dbc, upd, itemsSt, nxtSt⟩
        = PolygonsManager.createPolygon fid
            ⟨some shape, dbc, false, itemsSt, nxtSt⟩ := by
      simp only [PolygonsManager.onRootDownCreate]
      rw [if_pos (And.intro (by simp) hb)]
      rw [if_pos hcond]
    rw [hred]
    cases hval : PolygonShape.isValidRing
        (PolygonShape.popNode shape.data.geometry.vertices) with
    | true =>
        refine ⟨rfl, ?_, ?_, ?_⟩
        · simp [PolygonsManager.createPolygon, hval]
        · intro _
          simp [PolygonsManager.createPolygon, hval, committedRecord]
        · intro hcontra
          cases hcontra
    | false =>
        refine ⟨rfl, ?_, ?_, ?_⟩
        · simp [PolygonsManager.createPolygon, hval]
        · intro hcontra
          cases hcontra
        · intro _
          simp [PolygonsManager.createPolygon, hval]
  · intro hcond
    simp only [PolygonsManager.onRootDownCreate]
    rw [if_pos (And.intro (by simp) hb)]
    rw [if_neg hcond]

/-- A transient polygon with three fixed vertices plus the duplicated
cursor vertex, last click at stage position (50, 50). -/
def demoTmpValid : TmpShape :=
  { data := { id := "tmp",
              geometry := { type := "polygon",
                            vertices := [0, 0, 1, 0, 1, 1, 1, 1],
                            mvertices := [] },
              color := "red" },
    lastX := 50,
    lastY := 50 }

/-- Drawing state holding `demoTmpValid` with the double-click timer
running. -/
def demoDrawValid : DrawState :=
  { tmpShape := some demoTmpValid, dbClickActive := true, updated := true,
    items := [], next := 0 }

/-- C8 witness: a double click at the previous click position closes a
valid ring, committing it and destroying the transient shape. -/
theorem c8_double_click_close_witness :
    (PolygonsManager.onRootDownCreate "create" 0 50 50 100 100 "k"
        demoDrawValid).items
      = [(0, committedRecord demoTmpValid "k")] ∧
    (PolygonsManager.onRootDownCreate "create" 0 50 50 100 100 "k"
        demoDrawValid).tmpShape = none := by
  have h := (c8_double_click_close_amended demoDrawValid demoTmpValid 0
      50 50 100 100 "k" rfl (by decide)).1 ⟨rfl, by norm_num [demoTmpValid]⟩
  exact ⟨h.2.2.1 (by decide), h.2.1⟩

/-- A transient polygon holding only the initial duplicated vertex pair,
last click at stage position (100, 100). -/
def demoTmpShort : TmpShape :=
  { data := { id := "tmp",
              geometry := { type := "polygon",
                            vertices := [1/2, 1/2, 1/2, 1/2],
                            mvertices := [] },
              color := "red" },
    lastX := 100,
    lastY := 100 }

/-- Drawing state holding `demoTmpShort` with the double-click timer
running. -/
def demoDrawShort : DrawState :=
  { tmpShape := some demoTmpShort, dbClickActive := true, updated := true,
    items := [], next := 0 }

/-- C8 counterexample: a qualifying double click (timer active, squared
distance 0 < 2) on a ring that collapses below 3 vertices closes the
drawing but commits nothing: the shape set stays empty, so the claim that
such a pointer-down "closes and commits the polygon" fails. -/
theorem c8_double_click_close_cx :
    demoDrawShort.dbClickActive = true ∧
    (100 - demoTmpShort.lastX) * (100 - demoTmpShort.lastX) +
      (100 - demoTmpShort.lastY) * (100 - demoTmpShort.lastY) < 2 ∧
    (PolygonsManager.onRootDownCreate "create" 0 100 100 200 200 "k"
        demoDrawShort).items = [] ∧
    (PolygonsManager.onRootDownCreate "create" 0 100 100 200 200 "k"
        demoDrawShort).tmpShape = none := by
  refine ⟨rfl, by norm_num [demoTmpShort], ?_, ?_⟩ <;>
    norm_num [PolygonsManager.onRootDownCreate, demoDrawShort, demoTmpShort,
      PolygonsManager.createPolygon, PolygonShape.popNode,
      PolygonShape.isValidRing]

/-- C7: every `ModeManager.setMode` call performs the teardown first: its
event output starts with the teardown events (the pending update flush —
dispatched first — followed by the empty selection), the teardown state has
both sub-controllers destroyed and orbit controls re-enabled, and entering
edit mode with no target throws only after the teardown has fully
completed, leaving exactly the teardown events and teardown state. -/
theorem c7_setMode_teardown (s : MMState) (mode : Option String) :
    (∃ tail, (ModeManager.setMode s mode).1 = ModeManager.tdEvents s ++ tail) ∧
    ((ModeManager.tdState s).editMode = false ∧
      (ModeManager.tdState s).createMode = false ∧
      (ModeManager.tdState s).orbitEnabled = true) ∧
    (s.editMode = true → s.updatePending = true →
      (ModeManager.setMode s mode).1.head?
        = some (Event3D.update s.editTarget)) ∧
    (mode = some "edit" → s.editTarget = none →
      ModeManager.setMode s mode
        = (ModeManager.tdEvents s, ModeManager.tdState s,
            some "cannot go into edit mode without a target")) := by
  have hpre : ∃ tail,
      (ModeManager.setMode s mode).1 = ModeManager.tdEvents s ++ tail := by
    simp only [ModeManager.setMode]
    split
    · split
      · exact ⟨[], by simp⟩
      · exact ⟨_, rfl⟩
    · split
      · exact ⟨[], by simp⟩
      · exact ⟨[], by simp⟩
  refine ⟨hpre, ⟨rfl, rfl, rfl⟩, ?_, ?_⟩
  · intro he hu
    obtain ⟨tail, htail⟩ := hpre
    rw [htail]
    have htd : ModeManager.tdEvents s
        = Event3D.update s.editTarget :: [Event3D.selection []] := by
      simp [ModeManager.tdEvents, he, hu]
    rw [htd]
    rfl
  · intro hm ht
    subst hm
    simp [ModeManager.setMode, ModeManager.tdState, ht]

/-- A mode-manager state in edit mode with a pending update and no target. -/
def demoPendingMM : MMState :=
  { editMode := true, createMode := false, updatePending := true,
    editTarget := none, orbitEnabled := false, navigating := true,
    editing := true }

/-- C7 witness: on a concrete state with a pending update and no target,
setMode("edit") flushes the update first and throws only after teardown. -/
theorem c7_setMode_teardown_witness :
    (ModeManager.setMode demoPendingMM (some "edit")).1.head?
      = some (Event3D.update demoPendingMM.editTarget) ∧
    ModeManager.setMode demoPendingMM (some "edit")
      = (ModeManager.tdEvents demoPendingMM, ModeManager.tdState demoPendingMM,
          some "cannot go into edit mode without a target") := by
  have h := c7_setMode_teardown demoPendingMM (some "edit")
  exact ⟨h.2.2.1 rfl rfl, h.2.2.2 rfl rfl⟩

/-- C6: assigning a non-null edit target that is not a member of
`editableCuboids` throws immediately, and `setMode("edit")` with a null
edit target throws. -/
theorem c6_edit_preconditions :
    (∀ (ed : EditorState) (t : Nat), (∀ p ∈ ed.cuboids, p.1 ≠ t) →
      CuboidEditor.setEditTarget ed (some t)
        = Except.error "target is not an existing annotation") ∧
    (∀ s : MMState, s.editTarget = none →
      (ModeManager.setMode s (some "edit")).2.2
        = some "cannot go into edit mode without a target") := by
  constructor
  · intro ed t hmem
    have hany : ed.cuboids.any (fun p => p.1 == t) = false := by
      rw [List.any_eq_false]
      intro p hp
      simpa using hmem p hp
    simp only [CuboidEditor.setEditTarget]
    rw [if_neg (by simp [hany])]
  · intro s ht
    simp [ModeManager.setMode, ModeManager.tdState, ht]

/-- C6 witness: a concrete empty editor rejects token 0 as edit target,
and a concrete target-less manager state rejects setMode("edit"). -/
theorem c6_edit_preconditions_witness :
    CuboidEditor.setEditTarget
        { cuboids := [], next := 0, mm := demoPendingMM } (some 0)
      = Except.error "target is not an existing annotation" ∧
    (ModeManager.setMode demoPendingMM (some "edit")).2.2
      = some "cannot go into edit mode without a target" := by
  constructor
  · exact c6_edit_preconditions.1 { cuboids := [], next := 0, mm := demoPendingMM }
      0 (by intro p hp; cases hp)
  · exact c6_edit_preconditions.2 demoPendingMM rfl

/-- C9: committing a cuboid create gesture adds the new cuboid, makes it
the edit target, enters edit mode (destroying the create controller), and
dispatches a `selection` event containing exactly the new cuboid before
forwarding the `create` event to the host. -/
theorem c9_create_commit_selection (ed : EditorState) (c : Cuboid)
    (hedit : ed.mm.editMode = false) :
    (CreateModeController.onMouseUp3D ed c).1.mm.editMode = true ∧
    (CreateModeController.onMouseUp3D ed c).1.mm.editTarget = some ed.next ∧
    (CreateModeController.onMouseUp3D ed c).1.mm.createMode = false ∧
    (ed.next, c) ∈ (CreateModeController.onMouseUp3D ed c).1.cuboids ∧
    (CreateModeController.onMouseUp3D ed c).2
      = [Event3D.selection [ed.next], Event3D.create ed.next] := by
  refine ⟨?_, ?_, ?_, ?_, ?_⟩
  · simp [CreateModeController.onMouseUp3D, ModeManager.setMode,
      ModeManager.tdState]
  · simp [CreateModeController.onMouseUp3D, ModeManager.setMode,
      ModeManager.tdState]
  · simp [CreateModeController.onMouseUp3D, ModeManager.setMode,
      ModeManager.tdState]
  · simp [CreateModeController.onMouseUp3D]
  · simp [CreateModeController.onMouseUp3D, ModeManager.setMode,
      ModeManager.tdState, ModeManager.tdEvents, hedit]

/-- A sample editor in create mode with an empty annotation set. -/
def demoCreateEditor : EditorState :=
  { cuboids := [], next := 0,
    mm := { editMode := false, createMode := true, updatePending := false,
            editTarget := none, orbitEnabled := false, navigating := false,
            editing := false } }

/-- C9 witness: committing a concrete create gesture targets the new
cuboid, enters edit mode and emits `selection` then `create`. -/
theorem c9_create_commit_selection_witness :
    (CreateModeController.onMouseUp3D demoCreateEditor (demoCuboid 0)).1.mm.editMode
        = true ∧
    (CreateModeController.onMouseUp3D demoCreateEditor (demoCuboid 0)).1.mm.editTarget
        = some 0 ∧
    (CreateModeController.onMouseUp3D demoCreateEditor (demoCuboid 0)).2
        = [Event3D.selection [0], Event3D.create 0] := by
  have h := c9_create_commit_selection demoCreateEditor (demoCuboid 0) rfl
  exact ⟨h.1, h.2.1, h.2.2.2.2⟩

/-- The value produced by `normalizeAngle` always lies in the canonical
half-open interval [-pi, pi). -/
theorem normalizeAngle_mem (θ : ℝ) :
    normalizeAngle θ ∈ Set.Ico (-Real.pi) Real.pi := by
  have hb : (0 : ℝ) < 2 * Real.pi := by linarith [Real.pi_pos]
  have h1 : (⌊(θ + Real.pi) / (2 * Real.pi)⌋ : ℝ) * (2 * Real.pi)
      ≤ θ + Real.pi := by
    rw [← le_div_iff₀ hb]
    exact Int.floor_le _
  have h2 : θ + Real.pi
      < ((⌊(θ + Real.pi) / (2 * Real.pi)⌋ : ℝ) + 1) * (2 * Real.pi) := by
    rw [← div_lt_iff₀ hb]
    exact Int.lt_floor_add_one _
  constructor
  · simp only [normalizeAngle]
    nlinarith [h1]
  · simp only [normalizeAngle]
    nlinarith [h2]

/-- C1 (corrected): with a non-null edit target, pressing Space dispatches
exactly one `update` event whose detail is the edit target, and the
target's stored heading becomes the pre-press heading minus pi/2 without
any normalization. -/
theorem c1_space_rotation_amended (ed : EditorState) (t : Nat)
    (htgt : ed.mm.editTarget = some t) :
    (CuboidEditor.defaultOnKeyDown ed " ").2 = [Event3D.update (some t)] ∧
    ∀ c : Cuboid, (t, c) ∈ ed.cuboids →
      (t, { c with heading := c.heading - Real.pi / 2 })
        ∈ (CuboidEditor.defaultOnKeyDown ed " ").1.cuboids := by
  constructor
  · simp [CuboidEditor.defaultOnKeyDown, htgt]
  · intro c hc
    have hcub : (CuboidEditor.defaultOnKeyDown ed " ").1.cuboids
        = ed.cuboids.map (fun p =>
            if p.1 = t then
              (p.1, { p.2 with heading := p.2.heading - Real.pi / 2 })
            else p) := by
      simp [CuboidEditor.defaultOnKeyDown, htgt]
    rw [hcub]
    have h2 := List.mem_map_of_mem (fun p : Nat × Cuboid =>
      if p.1 = t then
        (p.1, { p.2 with heading := p.2.heading - Real.pi / 2 })
      else p) hc
    simpa using h2

/-- C1 witness: a concrete Space press on the selected cuboid with heading
0 emits one update event and stores heading 0 - pi/2. -/
theorem c1_space_rotation_witness :
    (CuboidEditor.defaultOnKeyDown (demoEditor3D 0) " ").2
        = [Event3D.update (some 0)] ∧
    (0, { demoCuboid 0 with heading := (demoCuboid 0).heading - Real.pi / 2 })
        ∈ (CuboidEditor.defaultOnKeyDown (demoEditor3D 0) " ").1.cuboids := by
  have h := c1_space_rotation_amended (demoEditor3D 0) 0 rfl
  exact ⟨h.1, h.2 (demoCuboid 0) (by simp [demoEditor3D])⟩

/-- C1 counterexample: with pre-press heading -3, the stored heading after
Space is -3 - pi/2, which is NOT the normalized value (it lies below -pi),
refuting the claim that the stored heading is normalized into the
canonical range. -/
theorem c1_space_rotation_cx :
    headingOf (pressSpace (demoEditor3D (-3))) = -3 - Real.pi / 2 ∧
    headingOf (pressSpace (demoEditor3D (-3)))
      ≠ normalizeAngle (-3 - Real.pi / 2) := by
  have h1 : headingOf (pressSpace (demoEditor3D (-3))) = -3 - Real.pi / 2 := rfl
  refine ⟨h1, ?_⟩
  rw [h1]
  intro heq
  have hmem := normalizeAngle_mem (-3 - Real.pi / 2)
  rw [← heq] at hmem
  have hlow := hmem.1
  have hpi4 := Real.pi_le_four
  linarith

/-- C2 (corrected): `rotate()` and `swap()` store the edit target's heading
normalized via `normalizeAngle` into the canonical half-open interval
[-pi, pi); the Space-key rotation, by contrast, stores an un-normalized
heading (see the counterexample). -/
theorem c2_heading_normalized_amended (ed : EditorState) (t : Nat)
    (c : Cuboid) (htgt : ed.mm.editTarget = some t)
    (hc : (t, c) ∈ ed.cuboids) :
    (t, { c with heading := normalizeAngle (c.heading - Real.pi / 2) })
        ∈ (CuboidEditor.rotate ed).1.cuboids ∧
    (t, { c with
          size := (c.size.2.1, c.size.1, c.size.2.2),
          heading := normalizeAngle (c.heading - Real.pi / 2) })
        ∈ (CuboidEditor.swap ed).1.cuboids ∧
    normalizeAngle (c.heading - Real.pi / 2) ∈ Set.Ico (-Real.pi) Real.pi := by
  refine ⟨?_, ?_, normalizeAngle_mem _⟩
  · have hcub : (CuboidEditor.rotate ed).1.cuboids
        = ed.cuboids.map (fun p =>
            if p.1 = t then
              (p.1, { p.2 with
                heading := normalizeAngle (p.2.heading - Real.pi / 2) })
            else p) := by
      simp [CuboidEditor.rotate, htgt]
    rw [hcub]
    have h2 := List.mem_map_of_mem (fun p : Nat × Cuboid =>
      if p.1 = t then
        (p.1, { p.2 with
          heading := normalizeAngle (p.2.heading - Real.pi / 2) })
      else p) hc
    simpa using h2
  · have hcub : (CuboidEditor.swap ed).1.cuboids
        = ed.cuboids.map (fun p =>
            if p.1 = t then
              (p.1, { p.2 with
                size := (p.2.size.2.1, p.2.size.1, p.2.size.2.2),
                heading := normalizeAngle (p.2.heading - Real.pi / 2) })
            else p) := by
      simp [CuboidEditor.swap, htgt]
    rw [hcub]
    have h2 := List.mem_map_of_mem (fun p : Nat × Cuboid =>
      if p.1 = t then
        (p.1, { p.2 with
          size := (p.2.size.2.1, p.2.size.1, p.2.size.2.2),
          heading := normalizeAngle (p.2.heading - Real.pi / 2) })
      else p) hc
    simpa using h2

/-- C2 witness: rotating the concrete selected cuboid with heading 0 stores
the normalized heading, which lies in [-pi, pi). -/
theorem c2_heading_normalized_witness :
    (0, { demoCuboid 0 with
          heading := normalizeAngle ((demoCuboid 0).heading - Real.pi / 2) })
        ∈ (CuboidEditor.rotate (demoEditor3D 0)).1.cuboids ∧
    normalizeAngle ((demoCuboid 0).heading - Real.pi / 2)
        ∈ Set.Ico (-Real.pi) Real.pi := by
  have h := c2_heading_normalized_amended (demoEditor3D 0) 0 (demoCuboid 0)
    rfl (by simp [demoEditor3D])
  exact ⟨h.1, h.2.2⟩

/-- C2 counterexample: starting from heading 0, the stored headings after
one and after five Space presses differ by exactly 2*pi, so no fixed
half-open interval of length 2*pi (of either orientation) contains every
heading stored by these mutations — the Space-key mutation does not keep
the heading normalized. -/
theorem c2_heading_interval_cx :
    ¬ ∃ a : ℝ,
      (headingOf (pressSpace (demoEditor3D 0)) ∈ Set.Ioc a (a + 2 * Real.pi) ∧
        headingOf (pressSpace (pressSpace (pressSpace (pressSpace
          (pressSpace (demoEditor3D 0)))))) ∈ Set.Ioc a (a + 2 * Real.pi)) ∨
      (headingOf (pressSpace (demoEditor3D 0)) ∈ Set.Ico a (a + 2 * Real.pi) ∧
        headingOf (pressSpace (pressSpace (pressSpace (pressSpace
          (pressSpace (demoEditor3D 0)))))) ∈ Set.Ico a (a + 2 * Real.pi)) := by
  have h1 : headingOf (pressSpace (demoEditor3D 0)) = 0 - Real.pi / 2 := rfl
  have h5 : headingOf (pressSpace (pressSpace (pressSpace (pressSpace
      (pressSpace (demoEditor3D 0))))))
      = 0 - Real.pi / 2 - Real.pi / 2 - Real.pi / 2 - Real.pi / 2
          - Real.pi / 2 := rfl
  rintro ⟨a, ⟨m1, m5⟩ | ⟨m1, m5⟩⟩
  · rw [h1, Set.mem_Ioc] at m1
    rw [h5, Set.mem_Ioc] at m5
    linarith [m1.2, m5.1]
  · rw [h1, Set.mem_Ico] at m1
    rw [h5, Set.mem_Ico] at m5
    linarith [m1.2, m5.1]
